import Mathlib

/-!
Shallow embedding of the Hubris kernel task module (`kern/src/task.rs`):
the task record, notification posting, the priority-scan scheduler,
timer processing, fault injection and task-ID validation.

Machine integers are modelled as `Nat` with explicit `% 2 ^ w` at the
points where a cast or wrap occurs in the source; bitwise operators
(`|||`, `&&&`, `<<<`, `>>>`) on `Nat` agree with the fixed-width
operations whenever the operands are in range, which the explicit mods
guarantee.

The companion `abi` crate (which declares `TaskState`, `SchedState`,
`FaultInfo`, `Priority`, the `DEAD` response code) and the `err` module
(which declares `UserError`) are not part of the sources being checked,
so those types are modelled from the specification, as marked on each
declaration.  Fields of `Task` that no verified operation reads (the
static region table and the ROM descriptor pointer, used only by the
memory-access predicates and reinitialization) are omitted.
-/

namespace Hubris

/-- Modelled from the spec: usage errors from the abi crate (not under
src).  Only `TaskOutOfRange` is needed; the remaining variants are
collapsed into an opaque code. -/
inductive UsageError where
  | TaskOutOfRange
  | OtherUsage (code : Nat)
deriving DecidableEq, Repr

/-- Modelled from the spec: fault descriptions from the abi crate (not
under src).  Usage faults are distinguished; all other fault causes are
collapsed into an opaque code. -/
inductive FaultInfo where
  | SyscallUsage (e : UsageError)
  | OtherFault (code : Nat)
deriving DecidableEq, Repr

/-- Generation number of a task incarnation: a `u8` in the source
(`Generation(u8)`). -/
structure Generation where
  val : Nat
deriving DecidableEq, Repr

/-- Task ID as used at the syscall boundary: a `u16` packing generation
and index (`TaskID(u16)`). -/
structure TaskID where
  val : Nat
deriving DecidableEq, Repr

/-- Sentinel `TaskID` naming the kernel: `TaskID(core::u16::MAX)`. -/
def TaskID.KERNEL : TaskID := ⟨65535⟩

/-- Number of bits in the index portion of a `TaskID`. -/
def TaskID.IDX_BITS : Nat := 10

/-- Mask derived from `IDX_BITS` for extracting the task index:
`(1 << IDX_BITS) - 1`. -/
def TaskID.IDX_MASK : Nat := (1 <<< TaskID.IDX_BITS) - 1

/-- Fabricates a `TaskID` for the given index and generation:
`(gen.0 as u16) << IDX_BITS | (index as u16 & IDX_MASK)`.  The `% 256`
reads the `u8` generation, `% 2 ^ 16` models the `u16` casts and the
`u16` shift wrap. -/
def TaskID.from_index_and_gen (index : Nat) (g : Generation) : TaskID :=
  ⟨(((g.val % 256) <<< TaskID.IDX_BITS) % 2 ^ 16) |||
    ((index % 2 ^ 16) &&& TaskID.IDX_MASK)⟩

/-- Extracts the index part of a `TaskID`: `self.0 & IDX_MASK`. -/
def TaskID.index (id : TaskID) : Nat :=
  id.val &&& TaskID.IDX_MASK

/-- Extracts the generation part of a `TaskID`:
`Generation((self.0 >> IDX_BITS) as u8)`. -/
def TaskID.generation (id : TaskID) : Generation :=
  ⟨(id.val >>> TaskID.IDX_BITS) % 256⟩

/-- Modelled from the spec: task priority from the abi crate (not under
src); a small unsigned value, lower numeric value = more important. -/
structure Priority where
  val : Nat
deriving DecidableEq, Repr

/-- Modelled from the spec: the priority comparison used by the
scheduler; lower numeric value = more important, so `self` is strictly
more important than `other` iff its value is strictly smaller. -/
def Priority.is_more_important_than (self other : Priority) : Bool :=
  decide (self.val < other.val)

/-- Modelled from the spec: scheduling states from the abi crate (not
under src).  `Runnable` and `InRecv` are specified; the send-blocked
and reply-blocked states required by the surrounding kernel are opaque
to the verified operations. -/
inductive SchedState where
  | Runnable
  | InRecv (peer : Option TaskID)
  | InSend (peer : TaskID)
  | InReply (peer : TaskID)
deriving DecidableEq, Repr

/-- Modelled from the spec: task lifecycle state from the abi crate
(not under src): healthy with a scheduling state, or faulted
remembering the pre-fault scheduling state and the fault. -/
inductive TaskState where
  | Healthy (s : SchedState)
  | Faulted (original_state : SchedState) (fault : FaultInfo)
deriving DecidableEq, Repr

/-- Modelled from the spec: the recoverable response codes from the abi
crate (not under src); only `DEAD` (stale generation) is needed. -/
inductive ResponseCode where
  | DEAD
deriving DecidableEq, Repr

/-- Collection of bits that may be posted to a task's notification
word: `NotificationSet(u32)`. -/
structure NotificationSet where
  val : Nat
deriving DecidableEq, Repr

/-- State for a task timer: optional deadline in kernel time (a `u64`
timestamp) and the notification bits to post when it fires. -/
structure TimerState where
  deadline : Option Nat
  to_post : NotificationSet
deriving DecidableEq, Repr

/-- Return value for operations with scheduling implications. -/
inductive NextTask where
  | Same
  | Other
  | Specific (i : Nat)
deriving DecidableEq, Repr

/-- Combination of two scheduling hints, mirroring the source match:
equal values win, two differing specifics downgrade to `Other`, a lone
specific wins, any `Other` forces `Other`. -/
def NextTask.combine (a b : NextTask) : NextTask :=
  if a = b then a
  else
    match a, b with
    | Specific _, Specific _ => Other
    | Specific x, _ => Specific x
    | _, Specific x => Specific x
    | Other, _ => Other
    | _, Other => Other
    | Same, Same => Same

/-- The architecture-owned saved machine state, restricted to the six
return registers that the verified operations write; the `u32` argument
registers and the stack pointer are never read by them. -/
structure SavedState where
  ret0 : Nat
  ret1 : Nat
  ret2 : Nat
  ret3 : Nat
  ret4 : Nat
  ret5 : Nat
deriving DecidableEq, Repr

/-- Results returned from a RECV, from the `ArchState` trait:
`ret0 = 0` (reserved), `ret1 = u32::from(sender.0)`, `ret2 = operation`
and the three `usize` counts cast to `u32`. -/
def SavedState.set_recv_result (s : SavedState) (sender : TaskID)
    (operation : Nat) (length : Nat) (response_capacity : Nat)
    (lease_count : Nat) : SavedState :=
  { s with
    ret0 := 0
    ret1 := sender.val % 2 ^ 16
    ret2 := operation % 2 ^ 32
    ret3 := length % 2 ^ 32
    ret4 := response_capacity % 2 ^ 32
    ret5 := lease_count % 2 ^ 32 }

/-- Bitwise complement on `u32` values: xor with the all-ones word. -/
def u32Not (x : Nat) : Nat := (2 ^ 32 - 1) ^^^ (x % 2 ^ 32)

/-- Internal representation of a task, from the `Task` struct: saved
machine state, priority, lifecycle state, timer, generation and the
notification bitmap and mask.  The static region table and descriptor
pointer are omitted (no verified operation reads them). -/
structure Task where
  save : SavedState
  priority : Priority
  state : TaskState
  timer : TimerState
  generation : Generation
  notifications : Nat
  notification_mask : Nat
deriving DecidableEq, Repr

/-- Clears the notification bits selected by the mask:
`self.notifications &= !self.notification_mask`. -/
def Task.acknowledge_notifications (t : Task) : Task :=
  { t with notifications := t.notifications &&& u32Not t.notification_mask }

/-- Posts a set of notification bits to a task: accumulate into the
pending word, and if any pending bit fires against the mask while the
task sits in an open receive, write the recv result, make the task
runnable, acknowledge and report that a context switch may be needed. -/
def Task.post (t : Task) (n : NotificationSet) : Task × Bool :=
  let t1 := { t with notifications := t.notifications ||| n.val }
  let firing := t1.notifications &&& t1.notification_mask
  if firing ≠ 0 then
    if t1.state = TaskState.Healthy (SchedState.InRecv none) then
      let t2 := { t1 with
        save := t1.save.set_recv_result TaskID.KERNEL firing 0 0 0
        state := TaskState.Healthy SchedState.Runnable }
      (t2.acknowledge_notifications, true)
    else (t1, false)
  else (t1, false)

/-- Checks whether a task is in a potentially schedulable state. -/
def Task.is_runnable (t : Task) : Bool :=
  decide (t.state = TaskState.Healthy SchedState.Runnable)

/-- The iteration order of `priority_scan`: the half-open range from
`previous + 1` to the table length, chained with the inclusive range
from 0 to `previous`. -/
def search_order (previous len : Nat) : List Nat :=
  List.range' (previous + 1) (len - (previous + 1)) ++ List.range (previous + 1)

/-- One iteration of the `priority_scan` loop body at index `i`:
skip the task unless it satisfies the predicate, and replace the
current best candidate only when the task is strictly more important
(out-of-range indices, impossible in the verified uses, keep the
candidate). -/
def scanStep (tasks : List Task) (pred : Task → Bool)
    (choice : Option (Nat × Priority)) (i : Nat) : Option (Nat × Priority) :=
  match tasks[i]? with
  | none => choice
  | some t =>
    if pred t then
      match choice with
      | some (j, prio) =>
        if t.priority.is_more_important_than prio then some (i, t.priority)
        else some (j, prio)
      | none => some (i, t.priority)
    else choice

/-- Scans the table for the next task after `previous` satisfying
`pred`, preferring more important priorities and, among ties, the first
task found in the round-robin iteration order. -/
def priority_scan (previous : Nat) (tasks : List Task)
    (pred : Task → Bool) : Option Nat :=
  ((search_order previous tasks.length).foldl (scanStep tasks pred) none).map
    Prod.fst

/-- Selects a new task to run after `previous`.  The source panics when
no task is runnable; the panic is modelled by `none`. -/
def select (previous : Nat) (tasks : List Task) : Option Nat :=
  priority_scan previous tasks (fun t => t.is_runnable)

/-- The loop body of `process_timers`, carried over the remaining tasks
with the index of the head task and the accumulated scheduling hint:
an expired deadline is cleared, the timer's notification set is posted,
and a wake contributes a `Specific` hint at this index. -/
def process_timers_go (current_time : Nat) :
    List Task → Nat → NextTask → List Task × NextTask
  | [], _, sched_hint => ([], sched_hint)
  | task :: rest, index, sched_hint =>
    match task.timer.deadline with
    | some deadline =>
      if deadline ≤ current_time then
        let task1 := { task with timer := { task.timer with deadline := none } }
        let r := task1.post task1.timer.to_post
        let task_hint := if r.2 then NextTask.Specific index else NextTask.Same
        let rest' := process_timers_go current_time rest (index + 1)
          (sched_hint.combine task_hint)
        (r.1 :: rest'.1, rest'.2)
      else
        let rest' := process_timers_go current_time rest (index + 1) sched_hint
        (task :: rest'.1, rest'.2)
    | none =>
      let rest' := process_timers_go current_time rest (index + 1) sched_hint
      (task :: rest'.1, rest'.2)

/-- Processes all enabled timers in the task table, posting
notifications for any expired by `current_time` and disabling them. -/
def process_timers (tasks : List Task) (current_time : Nat) :
    List Task × NextTask :=
  process_timers_go current_time tasks 0 NextTask.Same

/-- Modelled from the spec: the two-category `UserError` taxonomy from
the err module (not under src): recoverable response codes carrying a
scheduling hint, and fatal usage faults. -/
inductive UserError where
  | Recoverable (code : ResponseCode) (hint : NextTask)
  | Unrecoverable (fault : FaultInfo)
deriving DecidableEq, Repr

/-- Checks a user-provided `TaskID` for validity against the table:
out-of-range index is a fatal usage fault, a stale generation is the
recoverable `DEAD` error with hint `Same`, otherwise the validated
index is returned. -/
def check_task_id_against_table (table : List Task) (id : TaskID) :
    Except UserError Nat :=
  if h : id.index ≥ table.length then
    Except.error (UserError.Unrecoverable
      (FaultInfo.SyscallUsage UsageError.TaskOutOfRange))
  else if (table.get ⟨id.index, Nat.lt_of_not_le h⟩).generation ≠ id.generation then
    Except.error (UserError.Recoverable ResponseCode.DEAD NextTask.Same)
  else
    Except.ok id.index

/-- Puts the designated task into a forced fault condition and notifies
the supervisor (task index 0) with the process-wide fault-notification
bitmask, here threaded explicitly as `fault_notification` since the
source keeps it in a relaxed atomic global.  Out-of-range indexing
panics in the source and is modelled by `none`. -/
def force_fault (tasks : List Task) (index : Nat) (fault : FaultInfo)
    (fault_notification : Nat) : Option (List Task × NextTask) :=
  match tasks[index]? with
  | none => none
  | some task =>
    let task' := { task with state :=
      match task.state with
      | TaskState.Healthy sched =>
        TaskState.Faulted sched fault
      | TaskState.Faulted original_state _ =>
        TaskState.Faulted original_state fault }
    let tasks1 := tasks.set index task'
    match tasks1[0]? with
    | none => none
    | some t0 =>
      let r := t0.post ⟨fault_notification⟩
      some (tasks1.set 0 r.1,
        if r.2 then NextTask.Specific 0 else NextTask.Other)

/-! Helper lemmas shared by several verification results. -/

lemma lt_length_of_getElem?_some {l : List Task} {i : Nat} {t : Task}
    (h : l[i]? = some t) : i < l.length := by
  rcases List.getElem?_eq_some.mp h with ⟨hlt, _⟩
  exact hlt

/-- Posting to a task that is not sitting in an open receive never wakes
it: only the pending word accumulates the bits. -/
lemma Task.post_not_open_recv (t : Task) (n : NotificationSet)
    (h : t.state ≠ TaskState.Healthy (SchedState.InRecv none)) :
    t.post n = ({ t with notifications := t.notifications ||| n.val }, false) := by
  simp only [Task.post]
  rw [if_neg h]
  exact ite_self _

/-! C4: TaskID packing at index 0x123, generation 0x2A. -/

/-- C4 counterexample: the packed 16-bit value at index 0x123 and
generation 0x2A is not 0xAB23 as the claim states; the claim's own
formula (0x2A << 10) | 0x123 evaluates to 0xA923. -/
theorem c4_counterexample :
    (TaskID.from_index_and_gen 0x123 ⟨0x2A⟩).val ≠ 0xAB23 := by decide

/-- C4 (amended): TaskID.from_index_and_gen 0x123 (Generation 0x2A)
yields the 16-bit value (0x2A << 10) | 0x123 = 0xA923, and on that
result the index is 0x123 and the generation is 0x2A, matching the
generation:6 / index:10 bit packing. -/
theorem c4_taskid_packing :
    TaskID.from_index_and_gen 0x123 ⟨0x2A⟩ = ⟨0xA923⟩ ∧
    (0xA923 : Nat) = ((0x2A <<< 10) ||| 0x123) ∧
    (TaskID.from_index_and_gen 0x123 ⟨0x2A⟩).index = 0x123 ∧
    (TaskID.from_index_and_gen 0x123 ⟨0x2A⟩).generation.val = 0x2A := by
  refine ⟨?_, ?_, ?_, ?_⟩ <;> decide

/-! C10: the index argument of from_index_and_gen is silently truncated
to its low 10 bits. -/

/-- C10: for every index and generation, the index read back from
TaskID.from_index_and_gen is the argument reduced mod 2^10 — the index
is silently truncated to its low 10 bits with no error reported — so
the round-trip identity holds exactly when the index is below 1024. -/
theorem c10_index_truncation (i : Nat) (g : Generation) :
    (TaskID.from_index_and_gen i g).index = i % 2 ^ 10 ∧
    ((TaskID.from_index_and_gen i g).index = i ↔ i < 2 ^ 10) := by
  have hmask : TaskID.IDX_MASK = 2 ^ 10 - 1 := by decide
  have hmain : (TaskID.from_index_and_gen i g).index = i % 2 ^ 10 := by
    show (((((g.val % 256) <<< TaskID.IDX_BITS) % 2 ^ 16) |||
        ((i % 2 ^ 16) &&& TaskID.IDX_MASK)) &&& TaskID.IDX_MASK) = i % 2 ^ 10
    rw [hmask]
    rw [Nat.and_comm _ (2 ^ 10 - 1), Nat.and_or_distrib_left]
    have hA : (2 ^ 10 - 1) &&& (((g.val % 256) <<< TaskID.IDX_BITS) % 2 ^ 16) = 0 := by
      rw [Nat.and_comm, Nat.and_pow_two_sub_one_eq_mod]
      show ((g.val % 256) <<< TaskID.IDX_BITS) % 2 ^ 16 % 2 ^ 10 = 0
      rw [Nat.mod_mod_of_dvd _ (by norm_num), Nat.shiftLeft_eq]
      show (g.val % 256) * 2 ^ TaskID.IDX_BITS % 2 ^ 10 = 0
      have : TaskID.IDX_BITS = 10 := rfl
      rw [this]
      exact Nat.mul_mod_left _ _
    have hB : (2 ^ 10 - 1) &&& ((i % 2 ^ 16) &&& (2 ^ 10 - 1)) = i % 2 ^ 10 := by
      rw [Nat.and_comm, Nat.and_assoc, Nat.and_self,
        Nat.and_pow_two_sub_one_eq_mod]
      exact Nat.mod_mod_of_dvd _ (by norm_num)
    rw [hA, hB, Nat.zero_or]
  refine ⟨hmain, ?_⟩
  rw [hmain]
  constructor
  · intro h
    have := Nat.mod_lt i (show 0 < 2 ^ 10 by norm_num)
    omega
  · intro h
    exact Nat.mod_eq_of_lt h

/-! C8: algebra of NextTask.combine. -/

/-- C8: NextTask.combine is commutative and idempotent on equal
arguments, two differing Specifics combine to Other, a lone Specific
wins over Same and Other, Other absorbs Same, and Same + Same = Same. -/
theorem c8_combine_algebra :
    (∀ a b : NextTask, a.combine b = b.combine a) ∧
    (∀ a : NextTask, a.combine a = a) ∧
    (∀ x y : Nat, x ≠ y →
      (NextTask.Specific x).combine (NextTask.Specific y) = NextTask.Other) ∧
    (∀ x : Nat, (NextTask.Specific x).combine NextTask.Same = NextTask.Specific x) ∧
    (∀ x : Nat, (NextTask.Specific x).combine NextTask.Other = NextTask.Specific x) ∧
    NextTask.Other.combine NextTask.Same = NextTask.Other ∧
    NextTask.Same.combine NextTask.Same = NextTask.Same := by
  refine ⟨?_, ?_, ?_, ?_, ?_, by rfl, by rfl⟩
  · intro a b
    cases a <;> cases b <;> simp only [NextTask.combine] <;> try rfl
    rename_i x y
    by_cases h : x = y
    · subst h; rfl
    · rw [if_neg (by simpa using h), if_neg (by simpa using (Ne.symm h))]
  · intro a
    simp [NextTask.combine]
  · intro x y h
    simp only [NextTask.combine]
    rw [if_neg (by simpa using h)]
  · intro x
    simp [NextTask.combine]
  · intro x
    simp [NextTask.combine]

/-- C8 witness: the combine rules applied at concrete hints, with the
disequality hypothesis discharged at x = 1, y = 2. -/
theorem c8_combine_witness :
    (1 : Nat) ≠ 2 ∧
    (NextTask.Specific 1).combine (NextTask.Specific 2) = NextTask.Other :=
  ⟨by decide, c8_combine_algebra.2.2.1 1 2 (by decide)⟩

/-! C3: posting the empty notification set. -/

/-- A task sitting in an open receive with an already-pending
notification that its mask covers: the configuration on which posting
the empty set wakes the task. -/
def taskC3 : Task :=
  { save := ⟨0, 0, 0, 0, 0, 0⟩
    priority := ⟨0⟩
    state := TaskState.Healthy (SchedState.InRecv none)
    timer := ⟨none, ⟨0⟩⟩
    generation := ⟨0⟩
    notifications := 1
    notification_mask := 1 }

/-- C3 counterexample: posting the empty notification set to a task in
open receive whose pending word already intersects its mask returns
true and changes the task state, so post(T, empty) does not always
leave the state unchanged and return false. -/
theorem c3_counterexample :
    (taskC3.post ⟨0⟩).2 = true ∧ (taskC3.post ⟨0⟩).1.state ≠ taskC3.state := by
  decide

/-- C3 (amended): posting the empty notification set leaves the task
unchanged and returns false provided no already-pending notification
fires against the mask while the task is in an open receive — that is,
whenever pending AND mask is zero or the task is not in
Healthy(InRecv(None)). -/
theorem c3_post_empty (t : Task)
    (h : t.notifications &&& t.notification_mask = 0 ∨
      t.state ≠ TaskState.Healthy (SchedState.InRecv none)) :
    t.post ⟨0⟩ = (t, false) := by
  rcases h with h | h
  · simp [Task.post, h]
  · rw [show t.post ⟨0⟩ = t.post ⟨0⟩ from rfl]
    simp only [Task.post, Nat.or_zero]
    rw [if_neg h]
    exact ite_self _

/-- C3 witness: the amended statement applied to a runnable task with
no pending notifications. -/
theorem c3_witness :
    ((⟨⟨0, 0, 0, 0, 0, 0⟩, ⟨0⟩, TaskState.Healthy SchedState.Runnable,
        ⟨none, ⟨0⟩⟩, ⟨0⟩, 0, 0⟩ : Task).notifications &&&
      (⟨⟨0, 0, 0, 0, 0, 0⟩, ⟨0⟩, TaskState.Healthy SchedState.Runnable,
        ⟨none, ⟨0⟩⟩, ⟨0⟩, 0, 0⟩ : Task).notification_mask = 0 ∨
      (⟨⟨0, 0, 0, 0, 0, 0⟩, ⟨0⟩, TaskState.Healthy SchedState.Runnable,
        ⟨none, ⟨0⟩⟩, ⟨0⟩, 0, 0⟩ : Task).state ≠
        TaskState.Healthy (SchedState.InRecv none)) ∧
    (⟨⟨0, 0, 0, 0, 0, 0⟩, ⟨0⟩, TaskState.Healthy SchedState.Runnable,
        ⟨none, ⟨0⟩⟩, ⟨0⟩, 0, 0⟩ : Task).post ⟨0⟩ =
      (⟨⟨0, 0, 0, 0, 0, 0⟩, ⟨0⟩, TaskState.Healthy SchedState.Runnable,
        ⟨none, ⟨0⟩⟩, ⟨0⟩, 0, 0⟩, false) :=
  ⟨Or.inl (by decide), c3_post_empty _ (Or.inl (by decide))⟩

/-! C1: open-receive wake via notification. -/

/-- C1: for a task in Healthy(InRecv(None)) whose pending word, after
accumulating the posted bits, intersects the mask, post returns true,
records a recv result with sender = KERNEL (16-bit all-ones), operation
= the firing set, length = response capacity = lease count = 0,
transitions the state to Healthy(Runnable), and leaves exactly the
unmasked pending bits: (old_pending | n) & NOT mask. -/
theorem c1_post_open_recv (t : Task) (n : NotificationSet)
    (hstate : t.state = TaskState.Healthy (SchedState.InRecv none))
    (hfire : (t.notifications ||| n.val) &&& t.notification_mask ≠ 0)
    (hmask : t.notification_mask < 2 ^ 32) :
    t.post n =
      ({ t with
          save := t.save.set_recv_result TaskID.KERNEL
            ((t.notifications ||| n.val) &&& t.notification_mask) 0 0 0
          state := TaskState.Healthy SchedState.Runnable
          notifications :=
            (t.notifications ||| n.val) &&& u32Not t.notification_mask },
        true) ∧
    (t.post n).1.save.ret1 = 65535 ∧
    (t.post n).1.save.ret2 =
      (t.notifications ||| n.val) &&& t.notification_mask ∧
    (t.post n).1.save.ret3 = 0 ∧
    (t.post n).1.save.ret4 = 0 ∧
    (t.post n).1.save.ret5 = 0 := by
  have hkey : t.post n =
      ({ t with
          save := t.save.set_recv_result TaskID.KERNEL
            ((t.notifications ||| n.val) &&& t.notification_mask) 0 0 0
          state := TaskState.Healthy SchedState.Runnable
          notifications :=
            (t.notifications ||| n.val) &&& u32Not t.notification_mask },
        true) := by
    simp only [Task.post]
    rw [if_pos hfire, if_pos hstate]
    rfl
  have hop : ((t.notifications ||| n.val) &&& t.notification_mask) % 2 ^ 32 =
      (t.notifications ||| n.val) &&& t.notification_mask :=
    Nat.mod_eq_of_lt (Nat.lt_of_le_of_lt (Nat.and_le_right) hmask)
  refine ⟨hkey, ?_, ?_, ?_, ?_, ?_⟩ <;>
    rw [hkey] <;>
    simp only [SavedState.set_recv_result]
  · rfl
  · exact hop
  · rfl
  · rfl
  · rfl

/-- The task of scenario S1: mask 4, nothing pending, blocked in an
open receive. -/
def taskS1 : Task :=
  { save := ⟨0, 0, 0, 0, 0, 0⟩
    priority := ⟨0⟩
    state := TaskState.Healthy (SchedState.InRecv none)
    timer := ⟨none, ⟨0⟩⟩
    generation := ⟨0⟩
    notifications := 0
    notification_mask := 4 }

/-- C1 witness: scenario S1 — posting 0x6 to taskS1 returns true,
leaves pending 0x2, records operation 0x4 from the kernel, and makes
the task runnable. -/
theorem c1_witness :
    taskS1.state = TaskState.Healthy (SchedState.InRecv none) ∧
    (taskS1.notifications ||| (6 : Nat)) &&& taskS1.notification_mask ≠ 0 ∧
    taskS1.notification_mask < 2 ^ 32 ∧
    taskS1.post ⟨6⟩ =
      ({ taskS1 with
          save := taskS1.save.set_recv_result TaskID.KERNEL
            ((taskS1.notifications ||| 6) &&& taskS1.notification_mask) 0 0 0
          state := TaskState.Healthy SchedState.Runnable
          notifications :=
            (taskS1.notifications ||| 6) &&& u32Not taskS1.notification_mask },
        true) ∧
    (taskS1.post ⟨6⟩).2 = true ∧
    (taskS1.post ⟨6⟩).1.notifications = 2 ∧
    (taskS1.post ⟨6⟩).1.save.ret2 = 4 ∧
    (taskS1.post ⟨6⟩).1.save.ret1 = 65535 ∧
    (taskS1.post ⟨6⟩).1.state = TaskState.Healthy SchedState.Runnable :=
  ⟨rfl, by decide, by decide,
    (c1_post_open_recv taskS1 ⟨6⟩ rfl (by decide) (by decide)).1,
    by decide, by decide, by decide, by decide, by decide⟩

/-! C5: task-ID validation against the table. -/

/-- C5: check_task_id_against_table fails with the fatal usage error
SyscallUsage(TaskOutOfRange) iff the ID's index is out of range, fails
with the recoverable DEAD error carrying hint Same iff the index is in
range but the stored generation differs, and otherwise returns the
validated index. -/
theorem c5_check_task_id (table : List Task) (id : TaskID) :
    (check_task_id_against_table table id =
        Except.error (UserError.Unrecoverable
          (FaultInfo.SyscallUsage UsageError.TaskOutOfRange)) ↔
      table.length ≤ id.index) ∧
    (check_task_id_against_table table id =
        Except.error (UserError.Recoverable ResponseCode.DEAD NextTask.Same) ↔
      ∃ t, table[id.index]? = some t ∧ t.generation ≠ id.generation) ∧
    (∀ t, table[id.index]? = some t → t.generation = id.generation →
      check_task_id_against_table table id = Except.ok id.index) := by
  by_cases h : id.index ≥ table.length
  · rw [check_task_id_against_table, dif_pos h]
    refine ⟨by simp [h], ?_, ?_⟩
    · simp [List.getElem?_eq_none_iff.mpr h]
    · intro t ht
      rw [List.getElem?_eq_none_iff.mpr h] at ht
      cases ht
  · have hlt : id.index < table.length := Nat.lt_of_not_le h
    have hget : table[id.index]? = some (table.get ⟨id.index, hlt⟩) := by
      rw [List.getElem?_eq_getElem hlt]
      simp [List.get_eq_getElem]
    rw [check_task_id_against_table, dif_neg h]
    by_cases hgen : (table.get ⟨id.index, Nat.lt_of_not_le h⟩).generation ≠
        id.generation
    · rw [if_pos hgen]
      refine ⟨by simp [Nat.lt_of_not_le h, Nat.not_le_of_lt hlt], ?_, ?_⟩
      · simp only [hget]
        constructor
        · intro _
          exact ⟨table.get ⟨id.index, hlt⟩, rfl, hgen⟩
        · intro _
          trivial
      · intro t ht hg
        rw [hget] at ht
        cases ht
        exact absurd hg hgen
    · rw [if_neg hgen]
      push_neg at hgen
      refine ⟨by simp [Nat.not_le_of_lt hlt], ?_, ?_⟩
      · simp only [hget]
        constructor
        · intro hcontra
          cases hcontra
        · rintro ⟨t, ht, hne⟩
          cases ht
          exact absurd hgen hne
      · intro _ _ _
        rfl

/-- C5 witness: the characterization applied at a concrete one-task
table and a matching ID, together with evaluated outcomes for the three
cases: a valid lookup, a stale generation, and an out-of-range index. -/
theorem c5_witness :
    (∀ t, ([taskS1] : List Task)[TaskID.index ⟨0⟩]? = some t →
      t.generation = TaskID.generation ⟨0⟩ →
      check_task_id_against_table [taskS1] ⟨0⟩ =
        Except.ok (TaskID.index ⟨0⟩)) ∧
    check_task_id_against_table [taskS1] ⟨0⟩ = Except.ok 0 ∧
    check_task_id_against_table [taskS1] ⟨1024⟩ =
      Except.error (UserError.Recoverable ResponseCode.DEAD NextTask.Same) ∧
    check_task_id_against_table [taskS1] ⟨1⟩ =
      Except.error (UserError.Unrecoverable
        (FaultInfo.SyscallUsage UsageError.TaskOutOfRange)) :=
  ⟨(c5_check_task_id [taskS1] ⟨0⟩).2.2, by rfl, by rfl, by rfl⟩

/-! C7 and C9: fault injection. -/

/-- The state transition force_fault applies to the designated task: a
healthy task records its scheduling state together with the fault,
while an already-faulted task keeps its original schedulable state and
only the fault information is overwritten. -/
def set_fault (t : Task) (fault : FaultInfo) : Task :=
  { t with state :=
    match t.state with
    | TaskState.Healthy sched => TaskState.Faulted sched fault
    | TaskState.Faulted original_state _ =>
      TaskState.Faulted original_state fault }

/-- Unfolding equation for force_fault when both lookups succeed: the
designated task is faulted in place, then the notification bitmask is
posted to the (possibly just-faulted) task at index 0 of the updated
table, and the hint reports whether that post woke the supervisor. -/
lemma force_fault_spec (tasks : List Task) (index : Nat) (fault : FaultInfo)
    (fn : Nat) (t : Task) (ht : tasks[index]? = some t) (t0 : Task)
    (ht0 : (tasks.set index (set_fault t fault))[0]? = some t0) :
    force_fault tasks index fault fn =
      some ((tasks.set index (set_fault t fault)).set 0 (t0.post ⟨fn⟩).1,
        if (t0.post ⟨fn⟩).2 then NextTask.Specific 0 else NextTask.Other) := by
  have ht0' : (tasks.set index
      { t with state :=
        match t.state with
        | TaskState.Healthy sched => TaskState.Faulted sched fault
        | TaskState.Faulted original_state _ =>
          TaskState.Faulted original_state fault })[0]? = some t0 := ht0
  simp only [force_fault, ht, ht0']
  rfl

/-- In set_fault the resulting state is always a Faulted state, never a
healthy open receive. -/
lemma set_fault_not_open_recv (t : Task) (fault : FaultInfo) :
    (set_fault t fault).state ≠
      TaskState.Healthy (SchedState.InRecv none) := by
  cases hs : t.state <;> simp [set_fault, hs]

/-- C7: force_fault maps a task in Healthy(s) to
Faulted { original_state := s, fault }, maps a task already in
Faulted { original_state, .. } to Faulted { original_state, fault }
(preserving the original schedulable state and overwriting only the
fault on a double fault), then posts the FAULT_NOTIFICATION bitmask to
the task at index 0 of the updated table, returning Specific 0 if that
post woke the supervisor and Other otherwise. -/
theorem c7_force_fault (tasks : List Task) (index : Nat) (fault : FaultInfo)
    (fn : Nat) (h : index < tasks.length) :
    ∃ t t0, tasks[index]? = some t ∧
      (tasks.set index (set_fault t fault))[0]? = some t0 ∧
      force_fault tasks index fault fn =
        some ((tasks.set index (set_fault t fault)).set 0 (t0.post ⟨fn⟩).1,
          if (t0.post ⟨fn⟩).2 then NextTask.Specific 0 else NextTask.Other) ∧
      (∀ s, t.state = TaskState.Healthy s →
        (set_fault t fault).state = TaskState.Faulted s fault) ∧
      (∀ s f0, t.state = TaskState.Faulted s f0 →
        (set_fault t fault).state = TaskState.Faulted s fault) := by
  have hget : tasks[index]? = some tasks[index] := List.getElem?_eq_getElem h
  have hlen : 0 < (tasks.set index (set_fault tasks[index] fault)).length := by
    rw [List.length_set]
    exact Nat.lt_of_le_of_lt (Nat.zero_le index) h
  have ht0 : (tasks.set index (set_fault tasks[index] fault))[0]? =
      some (tasks.set index (set_fault tasks[index] fault))[0] :=
    List.getElem?_eq_getElem hlen
  refine ⟨tasks[index], (tasks.set index (set_fault tasks[index] fault))[0],
    hget, ht0, force_fault_spec tasks index fault fn tasks[index] hget _ ht0,
    ?_, ?_⟩
  · intro s hs
    simp [set_fault, hs]
  · intro s f0 hs
    simp [set_fault, hs]

/-- The task of scenario S6 after its first fault: the original
scheduling state InRecv(Some(t2)) is recorded next to the fault. -/
def taskS6 : Task :=
  { save := ⟨0, 0, 0, 0, 0, 0⟩
    priority := ⟨0⟩
    state := TaskState.Faulted (SchedState.InRecv (some ⟨2⟩)) (FaultInfo.OtherFault 0)
    timer := ⟨none, ⟨0⟩⟩
    generation := ⟨0⟩
    notifications := 0
    notification_mask := 0 }

/-- C7 witness: scenario S6 — the theorem applied to a one-task table
whose task is already faulted with original state InRecv(Some(t2)),
being faulted a second time: the original state is preserved and only
the fault is overwritten, and the overall call evaluates as computed. -/
theorem c7_witness :
    (0 : Nat) < [taskS6].length ∧
    (∃ t t0, ([taskS6] : List Task)[0]? = some t ∧
      (([taskS6] : List Task).set 0 (set_fault t (FaultInfo.OtherFault 1)))[0]? =
        some t0 ∧
      force_fault [taskS6] 0 (FaultInfo.OtherFault 1) 0 =
        some ((([taskS6] : List Task).set 0
            (set_fault t (FaultInfo.OtherFault 1))).set 0 (t0.post ⟨0⟩).1,
          if (t0.post ⟨0⟩).2 then NextTask.Specific 0 else NextTask.Other) ∧
      (∀ s, t.state = TaskState.Healthy s →
        (set_fault t (FaultInfo.OtherFault 1)).state =
          TaskState.Faulted s (FaultInfo.OtherFault 1)) ∧
      (∀ s f0, t.state = TaskState.Faulted s f0 →
        (set_fault t (FaultInfo.OtherFault 1)).state =
          TaskState.Faulted s (FaultInfo.OtherFault 1))) ∧
    (force_fault [taskS6] 0 (FaultInfo.OtherFault 1) 0).map
        (fun p => p.1.map Task.state) =
      some [TaskState.Faulted (SchedState.InRecv (some ⟨2⟩))
        (FaultInfo.OtherFault 1)] :=
  ⟨by decide, c7_force_fault [taskS6] 0 (FaultInfo.OtherFault 1) 0 (by decide),
    by decide⟩

/-- C9: forcing a fault on the supervisor itself (index 0) always
returns Other, never Specific 0: the supervisor's state is set to a
Faulted state before the fault notification is posted to it, and post
never wakes a task that is not in Healthy(InRecv(None)), so the
FAULT_NOTIFICATION bits are left pending on the faulted supervisor
rather than delivered. -/
theorem c9_fault_supervisor (tasks : List Task) (fault : FaultInfo) (fn : Nat)
    (h : 0 < tasks.length) :
    ∃ t, tasks[0]? = some t ∧
      force_fault tasks 0 fault fn =
        some ((tasks.set 0 (set_fault t fault)).set 0
          ((set_fault t fault).post ⟨fn⟩).1, NextTask.Other) ∧
      ((set_fault t fault).post ⟨fn⟩).2 = false ∧
      ((set_fault t fault).post ⟨fn⟩).1.notifications =
        t.notifications ||| fn ∧
      ((set_fault t fault).post ⟨fn⟩).1.state = (set_fault t fault).state ∧
      (∀ s, t.state = TaskState.Healthy s →
        (set_fault t fault).state = TaskState.Faulted s fault) ∧
      (∀ s f0, t.state = TaskState.Faulted s f0 →
        (set_fault t fault).state = TaskState.Faulted s fault) := by
  have hget : tasks[0]? = some tasks[0] := List.getElem?_eq_getElem h
  have hpost := Task.post_not_open_recv (set_fault tasks[0] fault) ⟨fn⟩
    (set_fault_not_open_recv tasks[0] fault)
  have ht0 : (tasks.set 0 (set_fault tasks[0] fault))[0]? =
      some (set_fault tasks[0] fault) := List.getElem?_set_self h
  have heq := force_fault_spec tasks 0 fault fn tasks[0] hget
    (set_fault tasks[0] fault) ht0
  refine ⟨tasks[0], hget, ?_, ?_, ?_, ?_, ?_, ?_⟩
  · rw [heq, hpost]
    simp
  · rw [hpost]
  · rw [hpost]
    simp [set_fault]
  · rw [hpost]
  · intro s hs
    simp [set_fault, hs]
  · intro s f0 hs
    simp [set_fault, hs]

/-- A supervisor task sitting in an open receive with mask bit 0 set:
without the fault it would be woken by posting bit 0. -/
def taskC9 : Task :=
  { save := ⟨0, 0, 0, 0, 0, 0⟩
    priority := ⟨0⟩
    state := TaskState.Healthy (SchedState.InRecv none)
    timer := ⟨none, ⟨0⟩⟩
    generation := ⟨0⟩
    notifications := 0
    notification_mask := 1 }

/-- C9 witness: a supervisor in open receive with the notification
masked in is faulted; even though the posted bit fires against its
mask, the post happens after the fault, so the hint is Other and the
bit stays pending. -/
theorem c9_witness :
    (0 : Nat) < [taskC9].length ∧
    (∃ t, ([taskC9] : List Task)[0]? = some t ∧
      force_fault [taskC9] 0 (FaultInfo.OtherFault 7) 1 =
        some ((([taskC9] : List Task).set 0
            (set_fault t (FaultInfo.OtherFault 7))).set 0
          ((set_fault t (FaultInfo.OtherFault 7)).post ⟨1⟩).1,
          NextTask.Other) ∧
      ((set_fault t (FaultInfo.OtherFault 7)).post ⟨1⟩).2 = false ∧
      ((set_fault t (FaultInfo.OtherFault 7)).post ⟨1⟩).1.notifications =
        t.notifications ||| 1 ∧
      ((set_fault t (FaultInfo.OtherFault 7)).post ⟨1⟩).1.state =
        (set_fault t (FaultInfo.OtherFault 7)).state ∧
      (∀ s, t.state = TaskState.Healthy s →
        (set_fault t (FaultInfo.OtherFault 7)).state =
          TaskState.Faulted s (FaultInfo.OtherFault 7)) ∧
      (∀ s f0, t.state = TaskState.Faulted s f0 →
        (set_fault t (FaultInfo.OtherFault 7)).state =
          TaskState.Faulted s (FaultInfo.OtherFault 7))) ∧
    (force_fault [taskC9] 0 (FaultInfo.OtherFault 7) 1).map
        (fun p => (p.1.map Task.notifications, p.2)) =
      some ([1], NextTask.Other) :=
  ⟨by decide, c9_fault_supervisor [taskC9] (FaultInfo.OtherFault 7) 1 (by decide),
    by decide⟩

/-! C6: timer processing. -/

/-- Combining any hint with Same on the right leaves it unchanged. -/
lemma NextTask.combine_same (a : NextTask) : a.combine NextTask.Same = a := by
  cases a <;> rfl

/-- The per-task effect of one `process_timers` pass: a task whose
deadline has expired by `now` has the deadline cleared and the timer's
notification set posted; any other task is untouched. -/
def timer_step (now : Nat) (task : Task) : Task :=
  match task.timer.deadline with
  | some deadline =>
    if deadline ≤ now then
      let task1 := { task with timer := { task.timer with deadline := none } }
      (task1.post task1.timer.to_post).1
    else task
  | none => task

/-- The per-task scheduling hint of one `process_timers` pass: Specific
at this index when the expired timer's post woke the task, Same
otherwise. -/
def timer_hint (now : Nat) (index : Nat) (task : Task) : NextTask :=
  match task.timer.deadline with
  | some deadline =>
    if deadline ≤ now then
      let task1 := { task with timer := { task.timer with deadline := none } }
      if (task1.post task1.timer.to_post).2 then NextTask.Specific index
      else NextTask.Same
    else NextTask.Same
  | none => NextTask.Same

/-- The per-task hints of one `process_timers` pass, in table-index
order starting at `index`. -/
def timer_hints (now : Nat) : List Task → Nat → List NextTask
  | [], _ => []
  | task :: rest, index =>
    timer_hint now index task :: timer_hints now rest (index + 1)

/-- The `process_timers` loop acts independently on each task and folds
the per-task hints from the left. -/
lemma process_timers_go_spec (now : Nat) (tasks : List Task) :
    ∀ (idx : Nat) (hint : NextTask),
      process_timers_go now tasks idx hint =
        (tasks.map (timer_step now),
          (timer_hints now tasks idx).foldl NextTask.combine hint) := by
  induction tasks with
  | nil => intro idx hint; rfl
  | cons task rest ih =>
    intro idx hint
    simp only [process_timers_go, List.map_cons, timer_hints, List.foldl_cons]
    cases hdl : task.timer.deadline with
    | none =>
      simp only [timer_step, timer_hint, hdl, ih, NextTask.combine_same]
    | some d =>
      by_cases hle : d ≤ now
      · simp only [timer_step, timer_hint, hdl, if_pos hle, ih]
      · simp only [timer_step, timer_hint, hdl, if_neg hle, ih,
          NextTask.combine_same]

/-- An always-runnable filler task with no timer. -/
def taskC6a : Task :=
  { save := ⟨0, 0, 0, 0, 0, 0⟩
    priority := ⟨0⟩
    state := TaskState.Healthy SchedState.Runnable
    timer := ⟨none, ⟨0⟩⟩
    generation := ⟨0⟩
    notifications := 0
    notification_mask := 0 }

/-- The task of scenario S7: deadline 100, posting notification bit 0
on expiry, mask 1, blocked in an open receive. -/
def taskC6b : Task :=
  { save := ⟨0, 0, 0, 0, 0, 0⟩
    priority := ⟨0⟩
    state := TaskState.Healthy (SchedState.InRecv none)
    timer := ⟨some 100, ⟨1⟩⟩
    generation := ⟨0⟩
    notifications := 0
    notification_mask := 1 }

/-- C6: process_timers visits tasks in increasing table-index order,
acting exactly on those whose deadline is Some(d) with d ≤ now — the
deadline is cleared and the timer's notification set posted — and the
returned hint is the left fold under combine, starting from Same, of
Specific(index) for each fired task whose post woke it and Same
otherwise; two distinct Specifics combine to Other, so at most one
Specific survives.  Concretely (scenario S7), a single armed task at
index 2 with deadline 100 yields Specific 2 at time 150, becoming
runnable with its deadline cleared. -/
theorem c6_process_timers :
    (∀ (tasks : List Task) (now : Nat),
      process_timers tasks now =
        (tasks.map (timer_step now),
          (timer_hints now tasks 0).foldl NextTask.combine NextTask.Same)) ∧
    (∀ i j : Nat, i ≠ j →
      (NextTask.Specific i).combine (NextTask.Specific j) = NextTask.Other) ∧
    (process_timers [taskC6a, taskC6a, taskC6b] 150).2 = NextTask.Specific 2 ∧
    ((process_timers [taskC6a, taskC6a, taskC6b] 150).1.map Task.state)[2]? =
      some (TaskState.Healthy SchedState.Runnable) ∧
    ((process_timers [taskC6a, taskC6a, taskC6b] 150).1.map
      (fun t => t.timer.deadline))[2]? = some none := by
  refine ⟨?_, ?_, by decide, by decide, by decide⟩
  · intro tasks now
    exact process_timers_go_spec now tasks 0 NextTask.Same
  · intro i j h
    simp only [NextTask.combine]
    rw [if_neg (by simpa using h)]

/-! C2: the priority scan. -/

/-- One scan step either keeps the candidate or installs the inspected
index with its task's priority (which requires that index to name a
task satisfying the predicate). -/
lemma scanStep_shape (tasks : List Task) (pred : Task → Bool)
    (choice : Option (Nat × Priority)) (i : Nat) :
    scanStep tasks pred choice i = choice ∨
    ∃ t, tasks[i]? = some t ∧ pred t = true ∧
      scanStep tasks pred choice i = some (i, t.priority) := by
  cases h : tasks[i]? with
  | none => left; simp [scanStep, h]
  | some t =>
    by_cases hp : pred t = true
    · cases choice with
      | none => right; exact ⟨t, rfl, hp, by simp [scanStep, h, hp]⟩
      | some jp =>
        obtain ⟨j, p⟩ := jp
        by_cases hb : t.priority.is_more_important_than p = true
        · right; exact ⟨t, rfl, hp, by simp [scanStep, h, hp, hb]⟩
        · left; simp [scanStep, h, hp, hb]
    · left; simp [scanStep, h, hp]

/-- A scan step at an index whose task satisfies the predicate: either
it replaces the candidate because the task is strictly more important,
or it keeps a candidate that is at least as important. -/
lemma scanStep_valid (tasks : List Task) (pred : Task → Bool)
    (choice : Option (Nat × Priority)) (i : Nat) (t : Task)
    (ht : tasks[i]? = some t) (hp : pred t = true) :
    (scanStep tasks pred choice i = some (i, t.priority) ∧
      ∀ j p, choice = some (j, p) → t.priority.val < p.val) ∨
    (∃ j p, choice = some (j, p) ∧
      scanStep tasks pred choice i = some (j, p) ∧ p.val ≤ t.priority.val) := by
  cases choice with
  | none =>
    left
    refine ⟨by simp [scanStep, ht, hp], ?_⟩
    intro j p hc
    cases hc
  | some jp =>
    obtain ⟨j, p⟩ := jp
    by_cases hb : t.priority.is_more_important_than p = true
    · left
      refine ⟨by simp [scanStep, ht, hp, hb], ?_⟩
      intro j0 p0 hc
      simp only [Option.some.injEq, Prod.mk.injEq] at hc
      obtain ⟨_, rfl⟩ := hc
      simpa [Priority.is_more_important_than] using hb
    · right
      have hble : p.val ≤ t.priority.val := by
        simp only [Priority.is_more_important_than,
          decide_eq_true_eq] at hb
        omega
      exact ⟨j, p, rfl, by simp [scanStep, ht, hp, hb], hble⟩

/-- Provenance of the scan fold: a returned candidate is either the
initial accumulator or an index of the scanned order whose task
satisfies the predicate and supplies the recorded priority. -/
lemma foldl_scan_shape (tasks : List Task) (pred : Task → Bool) :
    ∀ (order : List Nat) (acc : Option (Nat × Priority)) (i : Nat) (p : Priority),
      order.foldl (scanStep tasks pred) acc = some (i, p) →
      acc = some (i, p) ∨
      (i ∈ order ∧ ∃ t, tasks[i]? = some t ∧ pred t = true ∧ p = t.priority) := by
  intro order
  induction order with
  | nil =>
    intro acc i p h
    left
    exact h
  | cons k rest ih =>
    intro acc i p h
    rw [List.foldl_cons] at h
    rcases ih _ i p h with hacc | ⟨hmem, hex⟩
    · rcases scanStep_shape tasks pred acc k with hs | ⟨t, ht, hp, hs⟩
      · left
        rw [hs] at hacc
        exact hacc
      · rw [hs] at hacc
        simp only [Option.some.injEq, Prod.mk.injEq] at hacc
        obtain ⟨rfl, rfl⟩ := hacc
        exact Or.inr ⟨List.mem_cons_self k rest, t, ht, hp, rfl⟩
    · exact Or.inr ⟨List.mem_cons_of_mem k hmem, hex⟩

/-- The scan fold never worsens an existing candidate: the final
priority value is at most the accumulator's. -/
lemma foldl_scan_mono (tasks : List Task) (pred : Task → Bool) :
    ∀ (order : List Nat) (acc : Option (Nat × Priority)) (j : Nat) (p : Priority),
      acc = some (j, p) →
      ∃ j2 p2, order.foldl (scanStep tasks pred) acc = some (j2, p2) ∧
        p2.val ≤ p.val := by
  intro order
  induction order with
  | nil =>
    intro acc j p h
    exact ⟨j, p, h, Nat.le_refl _⟩
  | cons k rest ih =>
    intro acc j p h
    rw [List.foldl_cons]
    rcases scanStep_shape tasks pred acc k with hs | ⟨t, ht, hp, hs⟩
    · exact ih _ j p (hs.trans h)
    · rcases scanStep_valid tasks pred acc k t ht hp with
        ⟨hs2, himp⟩ | ⟨j0, p0, hacc, hs2, hle⟩
      · have hlt := himp j p h
        obtain ⟨j2, p2, hf, hle2⟩ := ih _ k t.priority hs2
        exact ⟨j2, p2, hf, Nat.le_trans hle2 (Nat.le_of_lt hlt)⟩
      · have he := hacc.symm.trans h
        simp only [Option.some.injEq, Prod.mk.injEq] at he
        obtain ⟨rfl, rfl⟩ := he
        exact ih _ j0 p0 hs2

/-- Dominance of the scan fold: whenever some index of the order names
a task satisfying the predicate, the fold returns a candidate whose
priority value is at most that task's. -/
lemma foldl_scan_dom (tasks : List Task) (pred : Task → Bool) :
    ∀ (order : List Nat) (acc : Option (Nat × Priority)) (k : Nat) (t : Task),
      k ∈ order → tasks[k]? = some t → pred t = true →
      ∃ j p, order.foldl (scanStep tasks pred) acc = some (j, p) ∧
        p.val ≤ t.priority.val := by
  intro order
  induction order with
  | nil =>
    intro acc k t hmem
    cases hmem
  | cons k2 rest ih =>
    intro acc k t hmem ht hp
    rw [List.foldl_cons]
    rcases List.mem_cons.mp hmem with heq | hmem2
    · subst heq
      rcases scanStep_valid tasks pred acc k t ht hp with
        ⟨hs, _⟩ | ⟨j0, p0, _, hs, hle⟩
      · exact foldl_scan_mono tasks pred rest _ k t.priority hs
      · obtain ⟨j2, p2, hf, hle2⟩ := foldl_scan_mono tasks pred rest _ j0 p0 hs
        exact ⟨j2, p2, hf, Nat.le_trans hle2 hle⟩
    · exact ih _ k t hmem2 ht hp

/-- Every index below the table length occurs in the round-robin
iteration order (given that `previous` itself is in range). -/
lemma mem_search_order (previous len k : Nat) (hprev : previous < len)
    (hk : k < len) : k ∈ search_order previous len := by
  unfold search_order
  by_cases hc : k ≤ previous
  · exact List.mem_append_right _ (List.mem_range.mpr (by omega))
  · exact List.mem_append_left _ (List.mem_range'_1.mpr ⟨by omega, by omega⟩)

/-- The round-robin iteration order never repeats an index. -/
lemma search_order_nodup (previous len : Nat) :
    (search_order previous len).Nodup := by
  unfold search_order
  refine List.Nodup.append (List.nodup_range' _ _) (List.nodup_range _) ?_
  intro a ha hb
  have h1 := List.mem_range'_1.mp ha
  have h2 := List.mem_range.mp hb
  omega

/-- C2: with `previous` in range and the predicate satisfied somewhere,
priority_scan returns Some i where the task at i satisfies the
predicate, no predicate-satisfying task is strictly more important, and
i is the first index in the iteration order previous+1 .. len followed
by 0 ..= previous among those of most-important priority: every
predicate-satisfying index strictly earlier in that order is strictly
less important (a tie never replaces an earlier candidate). -/
theorem c2_priority_scan (previous : Nat) (tasks : List Task)
    (pred : Task → Bool) (hprev : previous < tasks.length)
    (hex : ∃ (k : Nat) (t : Task), tasks[k]? = some t ∧ pred t = true) :
    ∃ (i : Nat) (t : Task), priority_scan previous tasks pred = some i ∧
      tasks[i]? = some t ∧ pred t = true ∧
      (∀ (j : Nat) (u : Task), tasks[j]? = some u → pred u = true →
        u.priority.is_more_important_than t.priority = false) ∧
      (∀ (l1 l2 : List Nat), search_order previous tasks.length = l1 ++ i :: l2 →
        ∀ (j : Nat) (u : Task), j ∈ l1 → tasks[j]? = some u → pred u = true →
          t.priority.is_more_important_than u.priority = true) := by
  obtain ⟨k, tk, htk, hpk⟩ := hex
  have hk : k < tasks.length := lt_length_of_getElem?_some htk
  obtain ⟨i, p, hfold, hple⟩ :=
    foldl_scan_dom tasks pred (search_order previous tasks.length) none k tk
      (mem_search_order previous tasks.length k hprev hk) htk hpk
  have hps : priority_scan previous tasks pred = some i := by
    unfold priority_scan
    rw [hfold]
    rfl
  rcases foldl_scan_shape tasks pred (search_order previous tasks.length) none
      i p hfold with hno | ⟨hiord, t, hti, hpi, hpt⟩
  · cases hno
  subst hpt
  refine ⟨i, t, hps, hti, hpi, ?_, ?_⟩
  · intro j u htu hpu
    have hj : j < tasks.length := lt_length_of_getElem?_some htu
    obtain ⟨j2, p2, hfold2, hle2⟩ :=
      foldl_scan_dom tasks pred (search_order previous tasks.length) none j u
        (mem_search_order previous tasks.length j hprev hj) htu hpu
    have he := hfold.symm.trans hfold2
    simp only [Option.some.injEq, Prod.mk.injEq] at he
    obtain ⟨rfl, rfl⟩ := he
    simp only [Priority.is_more_important_than, decide_eq_false_iff_not]
    omega
  · intro l1 l2 hsplit j u hjl1 htu hpu
    have hnodup := search_order_nodup previous tasks.length
    rw [hsplit] at hnodup
    rcases List.nodup_append.mp hnodup with ⟨_, h2, hd⟩
    have hil1 : i ∉ l1 := fun hmem => hd hmem (List.mem_cons_self i l2)
    have hil2 : i ∉ l2 := (List.nodup_cons.mp h2).1
    have hfold' := hfold
    rw [hsplit, List.foldl_append, List.foldl_cons] at hfold'
    obtain ⟨j1, p1, hf1, hle1⟩ :=
      foldl_scan_dom tasks pred l1 none j u hjl1 htu hpu
    rcases foldl_scan_shape tasks pred l1 none j1 p1 hf1 with
      hno | ⟨hj1l1, t1, ht1, hp1t, hpt1⟩
    · cases hno
    rcases foldl_scan_shape tasks pred l2 _ i t.priority hfold' with
      hstep | ⟨hmem, _⟩
    · rcases scanStep_valid tasks pred (l1.foldl (scanStep tasks pred) none) i t
        hti hpi with ⟨_, himp⟩ | ⟨j0, p0, hacc0, hs, _⟩
      · have hlt := himp j1 p1 hf1
        simp only [Priority.is_more_important_than, decide_eq_true_eq]
        omega
      · have he1 := hacc0.symm.trans hf1
        simp only [Option.some.injEq, Prod.mk.injEq] at he1
        obtain ⟨rfl, rfl⟩ := he1
        have he2 := hs.symm.trans hstep
        simp only [Option.some.injEq, Prod.mk.injEq] at he2
        obtain ⟨rfl, _⟩ := he2
        exact absurd hj1l1 hil1
    · exact absurd hmem hil2

/-- A runnable task of priority 5 for the round-robin scenario S3. -/
def task5 : Task :=
  { save := ⟨0, 0, 0, 0, 0, 0⟩
    priority := ⟨5⟩
    state := TaskState.Healthy SchedState.Runnable
    timer := ⟨none, ⟨0⟩⟩
    generation := ⟨0⟩
    notifications := 0
    notification_mask := 0 }

/-- C2 witness: scenario S3 — the theorem applied to three runnable
tasks of priorities [5, 5, 5] with previous = 0, together with the
evaluated round-robin results select(0) = 1, select(1) = 2,
select(2) = 0. -/
theorem c2_witness :
    (0 : Nat) < ([task5, task5, task5] : List Task).length ∧
    (∃ (k : Nat) (t : Task), ([task5, task5, task5] : List Task)[k]? = some t ∧
      (fun u : Task => u.is_runnable) t = true) ∧
    (∃ (i : Nat) (t : Task), priority_scan 0 [task5, task5, task5]
        (fun u : Task => u.is_runnable) = some i ∧
      ([task5, task5, task5] : List Task)[i]? = some t ∧
      (fun u : Task => u.is_runnable) t = true ∧
      (∀ (j : Nat) (u : Task), ([task5, task5, task5] : List Task)[j]? = some u →
        (fun v : Task => v.is_runnable) u = true →
        u.priority.is_more_important_than t.priority = false) ∧
      (∀ (l1 l2 : List Nat),
          search_order 0 ([task5, task5, task5] : List Task).length =
          l1 ++ i :: l2 →
        ∀ (j : Nat) (u : Task),
          j ∈ l1 → ([task5, task5, task5] : List Task)[j]? = some u →
          (fun v : Task => v.is_runnable) u = true →
          t.priority.is_more_important_than u.priority = true)) ∧
    select 0 [task5, task5, task5] = some 1 ∧
    select 1 [task5, task5, task5] = some 2 ∧
    select 2 [task5, task5, task5] = some 0 :=
  ⟨by decide, ⟨0, task5, rfl, rfl⟩,
    c2_priority_scan 0 [task5, task5, task5] (fun u : Task => u.is_runnable)
      (by decide) ⟨0, task5, rfl, rfl⟩,
    by decide, by decide, by decide⟩

end Hubris
